import Mathlib

/-!
Verification of the ai-bridge layered-cache / provider-dispatch core.

This file shallowly embeds the JavaScript sources of the repository:
  * `src/AiBridge.js` (constructor key handling, temp-key generation,
    cache-hit / cache-miss return paths, `jsonStringify` cache indexing),
  * `src/openai/getChatCompletion.js` (the non-streaming retry loop and
    the streaming event decoder),
  * the MongoDB cache backend (`MongoDBCache`),
and proves or refutes the frozen specification claims about them.

JavaScript values flowing through the code (parsed provider JSON, option
objects, message payloads) are embedded as the inductive `JsVal`.  JSON
numeric literals are modelled as integers (no claim exercises fractional
numbers).  Machine floating point is modelled by exact rational
arithmetic where it occurs (temp-key generation).
-/

/-- A JavaScript/JSON value.  Objects are association lists in insertion
order, mirroring JS object field ordering; JS `undefined` is represented
at use sites by `Option.none`. -/
inductive JsVal where
  | null : JsVal
  | bool : Bool → JsVal
  | num : Int → JsVal
  | str : String → JsVal
  | arr : List JsVal → JsVal
  | obj : List (String × JsVal) → JsVal

/-- JS truthiness of a defined value (`null`, `false`, `0`, `""` are falsy;
objects and arrays are always truthy). -/
def jsTruthy : JsVal → Bool
  | .null => false
  | .bool b => b
  | .num n => n != 0
  | .str s => s ≠ ""
  | .arr _ => true
  | .obj _ => true

/-- Truthiness of a possibly-`undefined` value (JS `undefined` is falsy). -/
def truthyO : Option JsVal → Bool
  | none => false
  | some v => jsTruthy v

/-- Property read `v[k]`: defined only on objects (duplicate keys resolve to
the last binding, as with `JSON.parse`); reading a property of any other
value yields `undefined` for the property names used by this code. -/
def jsGetField : JsVal → String → Option JsVal
  | .obj l, k => (l.reverse.find? (fun p => p.1 == k)).map Prod.snd
  | _, _ => none

/-- Element read `v[0]` as used on `respJson.choices[0]`: index 0 of an
array (or the `"0"` property of an object); `undefined` otherwise. -/
def jsIndex0 : JsVal → Option JsVal
  | .arr l => l.head?
  | .obj l => jsGetField (.obj l) "0"
  | _ => none

/-- Optional chaining `v?.k` on a possibly-undefined value. -/
def optChain (v : Option JsVal) (k : String) : Option JsVal :=
  v.bind (fun w => jsGetField w k)

/-- JS `a || b` on possibly-undefined values: keep `a` when truthy. -/
def truthyOr (a b : Option JsVal) : Option JsVal :=
  match a with
  | some v => if jsTruthy v then some v else b
  | none => b

mutual

/-- JS string coercion `String(v)` (template literal / `+=` coercion).
Arrays join their elements with `","`; plain objects print as
`[object Object]`. -/
def jsValToString : JsVal → String
  | .null => "null"
  | .bool true => "true"
  | .bool false => "false"
  | .num n => toString n
  | .str s => s
  | .arr l => String.intercalate "," (jsValToStringList l)
  | .obj _ => "[object Object]"

/-- Coercions of the elements of an array, in order. -/
def jsValToStringList : List JsVal → List String
  | [] => []
  | v :: vs => jsValToString v :: jsValToStringList vs

end

/-- Template-literal rendering of a possibly-undefined value
(`undefined` prints as the string `undefined`). -/
def tmplShow : Option JsVal → String
  | none => "undefined"
  | some v => jsValToString v

/-! ## `AiBridge` constructor provider-key handling (`src/AiBridge.js` lines 59-79) -/

/-- `AiBridge` constructor key normalization: `null`/`undefined` and the
empty string are nulled out (`if (key == null || key == "") key = null`). -/
def nullOutEmptyKey : Option String → Option String
  | none => none
  | some s => if s = "" then none else some s

/-- The provider-key checks of the `AiBridge` constructor
(`src/AiBridge.js` lines 59-79): null out empty keys, then throw
`"No provider keys provided"` when both keys are null; otherwise the
instance keeps the normalized `(openai, anthropic)` key pair. -/
def aiBridgeKeyCheck (openaiKey anthropicKey : Option String) :
    Except String (Option String × Option String) :=
  let akey := nullOutEmptyKey anthropicKey
  let okey := nullOutEmptyKey openaiKey
  if akey = none ∧ okey = none then
    .error "No provider keys provided"
  else
    .ok (okey, akey)

/-! ## Temp-key (partition-key) generation (`src/AiBridge.js` lines 159-171)

`Math.random()` is passed in as the exact rational `rand`;
IEEE-754 arithmetic is modelled by exact rational arithmetic. -/

/-- Temp-key generation of `AiBridge.getChatCompletion`
(`src/AiBridge.js` lines 159-171): a non-negative caller-supplied key is
kept; otherwise `tempRange = temperature * temperatureKeyMultiplier`,
and the key is `0` when `Math.floor(tempRange) <= 0`, else
`Math.floor(Math.random() * tempRange)`.  (The inner
`if (opt.temperature == 0) tempKey = 0` assignment is always
overwritten by the following if/else and is subsumed by the
`Math.floor(tempRange) <= 0` branch.) -/
def genTempKey (tempKeyIn : ℤ) (temperature mult rand : ℚ) : ℤ :=
  if tempKeyIn < 0 then
    let tempRange := temperature * mult
    if ⌊tempRange⌋ ≤ 0 then 0 else ⌊rand * tempRange⌋
  else tempKeyIn

/-! ## Cache-hit / cache-miss return paths of `AiBridge.getChatCompletion`
(`src/AiBridge.js` lines 173-216) -/

/-- The `token` sub-object of a chat-completion result. -/
structure ChatToken where
  prompt : Nat
  completion : Nat
  cache : Bool
deriving DecidableEq, Repr

/-- The object returned by `AiBridge.getChatCompletion`. -/
structure ChatComplResult where
  model : String
  completion : String
  token : ChatToken
deriving DecidableEq, Repr

/-- Tail of `AiBridge.getChatCompletion` (`src/AiBridge.js` lines
173-216) after the cache probe: on a hit (`cacheRes != null`) the stream
listener is invoked once with the cached text and the result carries
`token.cache = true`; on a miss the provider is invoked (its listener
events are `providerEvents`, its return value `providerRes`), the result
is cached, and the returned object carries `token.cache = false`.
The first component collects the listener invocations made on this path;
`tokenCount` stands for the external `getTokenCount` collaborator. -/
def getChatCompletionFinish (model : String) (promptTokenCount : Nat)
    (tokenCount : String → Nat) (cacheRes : Option String)
    (providerRes : String) (providerEvents : List String) :
    List String × ChatComplResult :=
  match cacheRes with
  | some cached =>
      ([cached],
       { model := model, completion := cached,
         token := { prompt := promptTokenCount,
                    completion := tokenCount cached, cache := true } })
  | none =>
      (providerEvents,
       { model := model, completion := providerRes,
         token := { prompt := promptTokenCount,
                    completion := tokenCount providerRes, cache := false } })

/-! ## MongoDB cache backend (`MongoDBCache`)

The remote store is modelled per collection as a list of records in
insertion (natural) order; `findOne` returns the first matching record,
`updateOne` with `upsert: true` updates the first record matching the
filter or appends a new one built from the filter.  MongoDB embedded-
document equality (used when `opt` appears in a filter) is structural
and field-order-sensitive, which `jsBeq` mirrors. -/

mutual

/-- Structural (order-sensitive) equality of embedded documents, as
MongoDB compares the `opt` filter field. -/
def jsBeq : JsVal → JsVal → Bool
  | .null, .null => true
  | .bool a, .bool b => a == b
  | .num a, .num b => a == b
  | .str a, .str b => a == b
  | .arr l1, .arr l2 => jsBeqList l1 l2
  | .obj l1, .obj l2 => jsBeqFields l1 l2
  | _, _ => false

/-- Elementwise document equality of arrays. -/
def jsBeqList : List JsVal → List JsVal → Bool
  | [], [] => true
  | a :: as, b :: bs => jsBeq a b && jsBeqList as bs
  | _, _ => false

/-- Fieldwise (order-sensitive) document equality of objects. -/
def jsBeqFields : List (String × JsVal) → List (String × JsVal) → Bool
  | [], [] => true
  | p :: ps, q :: qs => p.1 == q.1 && jsBeq p.2 q.2 && jsBeqFields ps qs
  | _, _ => false

end

/-- One record of an `embedding_{model}` collection: the fields written
by `addCacheEmbedding`'s upsert (`prompt`, `opt`) plus the `$set` payload
(`embedding`, a numeric vector). -/
structure EmbedRecord where
  prompt : String
  opt : JsVal
  embedding : List Int

/-- The slice of `cacheObj` that the embedding paths of `MongoDBCache`
read: `cacheObj.prompt`, `cacheObj.cleanOpt`, and
`cacheObj.promptOpt.model` (for the collection name). -/
structure EmbedCacheObj where
  prompt : String
  cleanOpt : JsVal
  promptOptModel : String

/-- `getCacheCollectionName(type, cacheObj)`:
`type + '_' + cacheObj.promptOpt.model`. -/
def getCacheCollectionName (type : String) (cacheObj : EmbedCacheObj) : String :=
  type ++ "_" ++ cacheObj.promptOptModel

/-- The MongoDB store, one record list per collection name. -/
def MongoStore : Type := String → List EmbedRecord

/-- `MongoDBCache.getCacheEmbedding(cacheObj)` (part_000 lines 118-136):
`findOne` on the `embedding_{model}` collection with the filter
`{ prompt: cacheObj.prompt }` — the filter does NOT mention
`cacheObj.cleanOpt` — returning the record's `embedding`, else `null`. -/
def getCacheEmbedding (store : MongoStore) (cacheObj : EmbedCacheObj) :
    Option (List Int) :=
  let coll := store (getCacheCollectionName "embedding" cacheObj)
  (coll.find? (fun r => r.prompt == cacheObj.prompt)).map (fun r => r.embedding)

/-- `updateOne({prompt, opt}, {$set: {embedding}}, {upsert: true})`:
update the first record matching both filter fields, else append a new
record. -/
def upsertEmbedding (coll : List EmbedRecord) (prompt : String) (opt : JsVal)
    (embedding : List Int) : List EmbedRecord :=
  match coll with
  | [] => [⟨prompt, opt, embedding⟩]
  | r :: rest =>
      if r.prompt == prompt && jsBeq r.opt opt then
        ⟨r.prompt, r.opt, embedding⟩ :: rest
      else
        r :: upsertEmbedding rest prompt opt embedding

/-- `MongoDBCache.addCacheEmbedding(cacheObj, embedding)` (part_000 lines
141-166): upsert into the `embedding_{model}` collection keyed by the
filter `{ prompt: cacheObj.prompt, opt: cacheObj.cleanOpt }`. -/
def addCacheEmbedding (store : MongoStore) (cacheObj : EmbedCacheObj)
    (embedding : List Int) : MongoStore :=
  let name := getCacheCollectionName "embedding" cacheObj
  fun n =>
    if n = name then upsertEmbedding (store name) cacheObj.prompt cacheObj.cleanOpt embedding
    else store n

/-- The empty store. -/
def emptyMongoStore : MongoStore := fun _ => []

/-! ## Non-streaming chat completion with retry
(`src/openai/getChatCompletion.js` lines 106-167 and 284-300)

One attempt's transport interaction (the `fetch` plus `resp.json()`) is
an input: either it throws before a body is parsed (`throwEarly`, e.g. a
network failure or invalid JSON), or it yields a parsed response body
(`respBody`).  The loop `for (let tries = 0; tries < 2; ++tries)` makes
at most two attempts, so the two potential attempt inputs are passed
explicitly. -/

/-- What one attempt's `fetch` + `resp.json()` does. -/
inductive AttemptInput where
  | throwEarly : String → AttemptInput
  | respBody : JsVal → AttemptInput

/-- How `getChatCompletion` can leave the non-streaming path: return the
raw API JSON (`rawApi` mode), return the completion value found in
`choices[0]` (`retStr`), fall through the `choices` checks and
`return null` (`retNull`), or exhaust both attempts and
`throw Error("Missing valid openai response, ...")` while holding the
final `respErr` and `respJson` variables for the diagnostic warn log
(`exhausted`). -/
inductive NSOutcome where
  | retRaw : JsVal → NSOutcome
  | retStr : JsVal → NSOutcome
  | retNull : NSOutcome
  | exhausted : Option String → Option JsVal → NSOutcome

/-- A whole non-streaming call: its outcome, how many attempts were
performed (1 or 2), and the values passed to `streamListener`. -/
structure NSRun where
  outcome : NSOutcome
  attemptsUsed : Nat
  events : List JsVal

/-- Inside one attempt, the body either `return`s out of the function
(with some listener events) or throws a value that the surrounding
`catch (e) { respErr = e }` records. -/
inductive AttemptStep where
  | ret : NSOutcome → List JsVal → AttemptStep
  | caught : String → AttemptStep

/-- The message of the `throw` on an error-encoding body
(line 130): `` `[${respJson.error.type}] ${respJson.message}` ``.
(The source interpolates `respJson.message`, not
`respJson.error.message`.) -/
def contentErrMsg (j : JsVal) : String :=
  "[" ++ tmplShow (optChain (jsGetField j "error") "type") ++ "] "
      ++ tmplShow (jsGetField j "message")

/-- Processing of one parsed response body (lines 125-163): an
error-encoding body throws (line 130, caught by the attempt's `catch`);
otherwise `choices[0].message.content`, then `choices[0].text`, is
returned (raw JSON in `rawApi` mode, with a `streamListener` call in
simple mode); a body with neither shape falls to `return null`
(line 163). -/
def nsProcessResp (useRawApi : Bool) (j : JsVal) : AttemptStep :=
  if truthyO (jsGetField j "error") then
    .caught (contentErrMsg j)
  else
    let choices := jsGetField j "choices"
    let c0 := choices.bind jsIndex0
    if truthyO choices && truthyO c0 then
      let message := c0.bind (fun v => jsGetField v "message")
      let mcontent := message.bind (fun v => jsGetField v "content")
      if truthyO message && truthyO mcontent then
        if useRawApi then .ret (.retRaw j) []
        else
          match mcontent with
          | some v => .ret (.retStr v) [v]
          | none => .ret .retNull []
      else
        let text := c0.bind (fun v => jsGetField v "text")
        if truthyO text then
          if useRawApi then .ret (.retRaw j) []
          else
            match text with
            | some v => .ret (.retStr v) [v]
            | none => .ret .retNull []
        else .ret .retNull []
    else .ret .retNull []

/-- One attempt of the retry loop: what the attempt body does, and the
value (if any) assigned to `respJson` by this attempt. -/
def nsAttempt (useRawApi : Bool) : AttemptInput → AttemptStep × Option JsVal
  | .throwEarly e => (.caught e, none)
  | .respBody j => (nsProcessResp useRawApi j, some j)

/-- The non-streaming path of `getChatCompletion`
(lines 106-167 and 284-300): two attempts at most; any `throw` inside an
attempt (transport failure or error-encoding body alike) is caught into
`respErr` and the loop moves to the next attempt; when no attempt
`return`s, control reaches line 300 and the call throws with the final
`respErr`/`respJson` diagnostics. -/
def getChatCompletionNS (useRawApi : Bool) (a1 a2 : AttemptInput) : NSRun :=
  let s1 := nsAttempt useRawApi a1
  match s1.1 with
  | .ret o ev => ⟨o, 1, ev⟩
  | .caught _ =>
      let s2 := nsAttempt useRawApi a2
      match s2.1 with
      | .ret o ev => ⟨o, 2, ev⟩
      | .caught e2 =>
          ⟨.exhausted (some e2) (s2.2.orElse (fun _ => s1.2)), 2, []⟩

/-! ## JSON parsing (`JSON.parse` as used by the stream decoder)

A recursive-descent parser for the JSON subset flowing through the
decoder (numeric literals as integers), with a fuel argument; `fuel =
input length + 1` suffices because at least one character is consumed
before every recursive descent. -/

/-- Skip JSON insignificant whitespace. -/
def skipWs : List Char → List Char
  | c :: rest => if c = ' ' ∨ c = '\t' ∨ c = '\n' ∨ c = '\r' then skipWs rest else c :: rest
  | [] => []

/-- Hexadecimal digit value. -/
def hexVal (c : Char) : Option Nat :=
  if '0' ≤ c ∧ c ≤ '9' then some (c.toNat - 48)
  else if 'a' ≤ c ∧ c ≤ 'f' then some (c.toNat - 87)
  else if 'A' ≤ c ∧ c ≤ 'F' then some (c.toNat - 55)
  else none

/-- Parse the body of a JSON string literal (after the opening quote),
returning its characters and the input after the closing quote. -/
def parseStrChars : List Char → Option (List Char × List Char)
  | [] => none
  | '"' :: rest => some ([], rest)
  | '\\' :: esc :: rest =>
      (match esc with
       | '"' => (parseStrChars rest).map (fun p => ('"' :: p.1, p.2))
       | '\\' => (parseStrChars rest).map (fun p => ('\\' :: p.1, p.2))
       | '/' => (parseStrChars rest).map (fun p => ('/' :: p.1, p.2))
       | 'n' => (parseStrChars rest).map (fun p => ('\n' :: p.1, p.2))
       | 't' => (parseStrChars rest).map (fun p => ('\t' :: p.1, p.2))
       | 'r' => (parseStrChars rest).map (fun p => ('\r' :: p.1, p.2))
       | 'b' => (parseStrChars rest).map (fun p => ('\x08' :: p.1, p.2))
       | 'f' => (parseStrChars rest).map (fun p => ('\x0C' :: p.1, p.2))
       | 'u' =>
           match rest with
           | h1 :: h2 :: h3 :: h4 :: rest2 =>
               match hexVal h1, hexVal h2, hexVal h3, hexVal h4 with
               | some a, some b, some c, some d =>
                   (parseStrChars rest2).map (fun p =>
                     (Char.ofNat (((a * 16 + b) * 16 + c) * 16 + d) :: p.1, p.2))
               | _, _, _, _ => none
           | _ => none
       | _ => none)
  | c :: rest => (parseStrChars rest).map (fun p => (c :: p.1, p.2))

/-- Decimal digits to a natural number. -/
def digitsToNat (ds : List Char) : Nat :=
  ds.foldl (fun a c => a * 10 + (c.toNat - 48)) 0

/-- Parse a JSON integer literal. -/
def parseIntLit (l : List Char) : Option (Int × List Char) :=
  match l with
  | '-' :: rest =>
      let sp := rest.span Char.isDigit
      if sp.1.isEmpty then none else some (-(digitsToNat sp.1 : Int), sp.2)
  | _ =>
      let sp := l.span Char.isDigit
      if sp.1.isEmpty then none else some ((digitsToNat sp.1 : Int), sp.2)

mutual

/-- Parse one JSON value. -/
def parseJsonVal : Nat → List Char → Option (JsVal × List Char)
  | 0, _ => none
  | fuel + 1, l =>
      match skipWs l with
      | 'n' :: 'u' :: 'l' :: 'l' :: rest => some (.null, rest)
      | 't' :: 'r' :: 'u' :: 'e' :: rest => some (.bool true, rest)
      | 'f' :: 'a' :: 'l' :: 's' :: 'e' :: rest => some (.bool false, rest)
      | '"' :: rest => (parseStrChars rest).map (fun p => (.str (String.mk p.1), p.2))
      | '{' :: rest =>
          (match skipWs rest with
           | '}' :: rest2 => some (.obj [], rest2)
           | _ => (parseObjFields fuel rest).map (fun p => (.obj p.1, p.2)))
      | '[' :: rest =>
          (match skipWs rest with
           | ']' :: rest2 => some (.arr [], rest2)
           | _ => (parseArrElems fuel rest).map (fun p => (.arr p.1, p.2)))
      | c :: rest =>
          if c = '-' ∨ c.isDigit then
            (parseIntLit (c :: rest)).map (fun p => (.num p.1, p.2))
          else none
      | [] => none

/-- Parse the fields of a JSON object (after a non-`}` position). -/
def parseObjFields : Nat → List Char → Option (List (String × JsVal) × List Char)
  | 0, _ => none
  | fuel + 1, l =>
      match skipWs l with
      | '"' :: rest =>
          (match parseStrChars rest with
           | none => none
           | some (kcs, rest2) =>
               match skipWs rest2 with
               | ':' :: rest3 =>
                   (match parseJsonVal fuel rest3 with
                    | none => none
                    | some (v, rest4) =>
                        match skipWs rest4 with
                        | ',' :: rest5 =>
                            (parseObjFields fuel rest5).map
                              (fun p => ((String.mk kcs, v) :: p.1, p.2))
                        | '}' :: rest5 => some ([(String.mk kcs, v)], rest5)
                        | _ => none)
               | _ => none)
      | _ => none

/-- Parse the elements of a JSON array (after a non-`]` position). -/
def parseArrElems : Nat → List Char → Option (List JsVal × List Char)
  | 0, _ => none
  | fuel + 1, l =>
      match parseJsonVal fuel l with
      | none => none
      | some (v, rest) =>
          match skipWs rest with
          | ',' :: rest2 => (parseArrElems fuel rest2).map (fun p => (v :: p.1, p.2))
          | ']' :: rest2 => some ([v], rest2)
          | _ => none

end

/-- `JSON.parse`: parse a complete JSON document; trailing non-whitespace
is a syntax error. -/
def parseJSON (s : String) : Option JsVal :=
  match parseJsonVal (s.length + 1) s.data with
  | some (v, rest) => if (skipWs rest).isEmpty then some v else none
  | none => none

/-! ## Streaming decode (`src/openai/getChatCompletion.js` lines 168-282)

The byte source is modelled as the list of decoded text chunks the
reader yields; after the list is exhausted the reader reports
`{ value: undefined, done: true }` (one final loop iteration that adds
nothing to the buffer, then the `break`). -/

/-- `while (rawBuffer.startsWith("\n")) rawBuffer = rawBuffer.slice(1)`
(line 211). -/
def dropLeadingNL (l : List Char) : List Char :=
  l.dropWhile (fun c => c = '\n')

/-- `rawBuffer.indexOf("\n\n")` (line 219), as an option. -/
def findDNL : List Char → Option Nat
  | c1 :: c2 :: rest =>
      if c1 = '\n' ∧ c2 = '\n' then some 0
      else (findDNL (c2 :: rest)).map (· + 1)
  | _ => none

/-- `String.prototype.trim` on a character list. -/
def trimChars (l : List Char) : List Char :=
  ((l.dropWhile Char.isWhitespace).reverse.dropWhile Char.isWhitespace).reverse

/-- The token extraction of lines 243-246:
`strToken = dataObj.choices[0]?.delta?.content || dataObj.choices[0]?.text || ""`,
guarded by `if (dataObj.choices && dataObj.choices[0])`, coerced to a
string by `parsedRes += strToken`. -/
def extractToken (dataObj : JsVal) : String :=
  let choices := jsGetField dataObj "choices"
  let c0 := choices.bind jsIndex0
  if truthyO choices && truthyO c0 then
    match truthyOr (optChain (optChain c0 "delta") "content")
          (truthyOr (optChain c0 "text") (some (.str ""))) with
    | some v => jsValToString v
    | none => ""
  else ""

/-- A `findDNL` hit lies at least two characters inside the buffer. -/
theorem findDNL_le {l : List Char} {p : Nat} (h : findDNL l = some p) :
    p + 2 ≤ l.length := by
  induction l generalizing p with
  | nil => simp [findDNL] at h
  | cons c1 rest ih =>
      match rest with
      | [] => simp [findDNL] at h
      | c2 :: rest2 =>
          rw [findDNL] at h
          split at h
          · cases h
            simp
          · rcases Option.map_eq_some'.mp h with ⟨q, hq, rfl⟩
            have := ih hq
            simpa using Nat.succ_le_succ this

/-- The inner block loop of the decoder (lines 219-259): while
`rawBuffer.indexOf("\n\n") > 0`, split off one `dataEvent`, trim it, and
dispatch on its prefix: `error:` throws with the remainder of the event
after the prefix; `data: [DONE]` is consumed and ignored; `data: \x7b` is
parsed as JSON and the extracted token is appended to the accumulated
text and emitted to the stream listener; any other shape throws.

Each iteration shortens the buffer by at least three characters, so the
`fuel` argument (instantiated with the buffer length by the caller) is
never exhausted; it only makes the recursion structural. -/
def processBlocks : Nat → List Char → String → List String →
    Except String (List Char × String × List String)
  | 0, buf, parsed, events => .ok (buf, parsed, events)
  | fuel + 1, buf, parsed, events =>
      match findDNL buf with
      | none => .ok (buf, parsed, events)
      | some p =>
          if 0 < p then
            let dataEvent := trimChars (buf.take p)
            let rest := buf.drop (p + 2)
            if List.isPrefixOf "error:".data dataEvent then
              .error ("Unexpected stream request error: " ++ String.mk (dataEvent.drop 6))
            else if List.isPrefixOf "data: [DONE]".data dataEvent then
              processBlocks fuel rest parsed events
            else if List.isPrefixOf "data: \x7b".data dataEvent then
              match parseJSON (String.mk (trimChars (dataEvent.drop 6))) with
              | none => .error "JSON.parse SyntaxError"
              | some dataObj =>
                  let strToken := extractToken dataObj
                  processBlocks fuel rest (parsed ++ strToken) (events ++ [strToken])
            else .error "Unexpected data event format, see warning logs"
          else .ok (buf, parsed, events)

/-- The reader loop of the streaming path (lines 200-275): per read,
append the chunk to the raw buffer, strip leading newlines, run the
block loop; when the reader reports completion, run one final
strip/block pass, then fail on a non-empty trimmed leftover buffer
(lines 266-272) or return the accumulated text and the listener events. -/
def streamDecodeLoop : List String → List Char → String → List String →
    Except String (String × List String)
  | chunk :: more, buf, parsed, events =>
      match processBlocks (buf ++ chunk.data).length
          (dropLeadingNL (buf ++ chunk.data)) parsed events with
      | .error e => .error e
      | .ok (buf2, parsed2, events2) => streamDecodeLoop more buf2 parsed2 events2
  | [], buf, parsed, events =>
      match processBlocks buf.length (dropLeadingNL buf) parsed events with
      | .error e => .error e
      | .ok (buf2, parsed2, events2) =>
          if (trimChars buf2).length > 0 then
            .error "Unexpected end of stream, with unprocessed data, see warning logs for more details"
          else .ok (parsed2, events2)

/-- Decode a whole stream from an empty initial state, yielding the
accumulated text and the listener events, or the thrown value. -/
def streamDecode (chunks : List String) : Except String (String × List String) :=
  streamDecodeLoop chunks [] "" []

/-- The caller-facing streaming request (lines 168-282): the decode
runs inside `try { ... } catch (e) { console.warn(...); throw "..." }`,
so any decoder throw surfaces to the caller as the fixed generic
message; on success the accumulated text is returned. -/
def streamingRequest (chunks : List String) : Except String String :=
  match streamDecode chunks with
  | .ok (s, _) => .ok s
  | .error _ => .error "Unexpected event processing error, see warning logs for more details"

/-- Substring test (for stating what a diagnostic message carries). -/
def containsSub : List Char → List Char → Bool
  | [], needle => needle.isEmpty
  | c :: rest, needle => List.isPrefixOf needle (c :: rest) || containsSub rest needle

/-- `hay` contains `needle` as a substring. -/
def strContains (hay needle : String) : Bool :=
  containsSub hay.data needle.data

/-! ## Canonical cache-index serialization (`fast-json-stable-stringify`)

`AiBridge.getChatCompletion` line 150 builds the cache index with
`jsonStringify(messages)` where `jsonStringify` is
`fast-json-stable-stringify`: ordinary `JSON.stringify` output except
that object keys are serialized in sorted order
(`objectKeys(node).sort()`, default lexicographic comparison).  Since a
JS object holds each key at most once, sorting the keys and looking each
one up is the same as sorting the (key, value) entries by key, which is
how the object case is embedded. -/

/-- Lower-case hexadecimal digit. -/
def hexDigitChar (n : Nat) : Char :=
  if n < 10 then Char.ofNat (48 + n) else Char.ofNat (87 + n)

/-- `JSON.stringify` escaping of one string character. -/
def jsQuoteChar (c : Char) : List Char :=
  if c = '"' then ['\\', '"']
  else if c = '\\' then ['\\', '\\']
  else if c = '\n' then ['\\', 'n']
  else if c = '\r' then ['\\', 'r']
  else if c = '\t' then ['\\', 't']
  else if c = '\x08' then ['\\', 'b']
  else if c = '\x0C' then ['\\', 'f']
  else if c.toNat < 32 then
    ['\\', 'u', '0', '0', hexDigitChar (c.toNat / 16), hexDigitChar (c.toNat % 16)]
  else [c]

/-- `JSON.stringify` of a string. -/
def jsQuote (s : String) : String :=
  "\"" ++ String.mk (s.data.flatMap jsQuoteChar) ++ "\""

/-- Order on rendered object entries: compare keys (the default
`Array.prototype.sort` string comparison). -/
def fieldLE (p q : String × String) : Prop := p.1 ≤ q.1

instance : DecidableRel fieldLE := fun p q => inferInstanceAs (Decidable (p.1 ≤ q.1))

instance : IsTotal (String × String) fieldLE := ⟨fun p q => le_total p.1 q.1⟩

instance : IsTrans (String × String) fieldLE := ⟨fun _ _ _ h1 h2 => le_trans h1 h2⟩

/-- Render one sorted object entry: `JSON.stringify(key) + ':' + value`. -/
def renderField (p : String × String) : String := jsQuote p.1 ++ ":" ++ p.2

mutual

/-- `fast-json-stable-stringify` (the `jsonStringify` dependency of
`src/AiBridge.js`): `JSON.stringify` output with object keys in sorted
order at every level. -/
def jsonStringify : JsVal → String
  | .null => "null"
  | .bool true => "true"
  | .bool false => "false"
  | .num n => toString n
  | .str s => jsQuote s
  | .arr l =>
      "[" ++ String.intercalate "," (jsonStringifyList l) ++ "]"
  | .obj l =>
      "\x7b" ++ String.intercalate ","
        ((List.insertionSort fieldLE (jsonStringifyFields l)).map renderField)
        ++ "\x7d"

/-- Serialization of the elements of an array, in order. -/
def jsonStringifyList : List JsVal → List String
  | [] => []
  | v :: vs => jsonStringify v :: jsonStringifyList vs

/-- Serialization of the values of an object's fields, keeping keys. -/
def jsonStringifyFields : List (String × JsVal) → List (String × String)
  | [] => []
  | p :: ps => (p.1, jsonStringify p.2) :: jsonStringifyFields ps

end

/-- Two JS values are semantically identical up to object-field insertion
order: equal leaves, arrays pointwise equivalent, and objects carrying
the same keys (each object's keys are unique, as in any JS object) with
equivalent values, in any insertion order. -/
def JsEquiv : JsVal → JsVal → Prop
  | .null, .null => True
  | .bool a, .bool b => a = b
  | .num a, .num b => a = b
  | .str a, .str b => a = b
  | .arr l1, .arr l2 =>
      l1.length = l2.length ∧
        ∀ (i : Nat) (h1 : i < l1.length) (h2 : i < l2.length),
          JsEquiv (l1.get ⟨i, h1⟩) (l2.get ⟨i, h2⟩)
  | .obj l1, .obj l2 =>
      (l1.map Prod.fst).Nodup ∧ (l2.map Prod.fst).Nodup ∧
      l1.length = l2.length ∧
        ∀ p, p ∈ l1 → ∃ q, q ∈ l2 ∧ p.1 = q.1 ∧ JsEquiv p.2 q.2
  | _, _ => False
termination_by a _ => sizeOf a
decreasing_by
  · have h2 := List.sizeOf_lt_of_mem (List.get_mem l1 i h1)
    simp only [JsVal.arr.sizeOf_spec]
    omega
  · rename_i hp
    have h2 := List.sizeOf_lt_of_mem hp
    rcases p with ⟨k, v⟩
    simp only [Prod.mk.sizeOf_spec, JsVal.obj.sizeOf_spec] at h2 ⊢
    omega

/-! ## Claim theorems -/

/-- C9: constructing an `AiBridge` whose `openai` and `anthropic`
provider keys are each `null` or the empty string throws
`"No provider keys provided"`, and an empty-string key behaves exactly
like an absent key. -/
theorem aiBridge_noKeys_throws :
    (∀ okey akey : Option String,
        (okey = none ∨ okey = some "") → (akey = none ∨ akey = some "") →
        aiBridgeKeyCheck okey akey = .error "No provider keys provided") ∧
    (∀ other : Option String,
        aiBridgeKeyCheck (some "") other = aiBridgeKeyCheck none other ∧
        aiBridgeKeyCheck other (some "") = aiBridgeKeyCheck other none) := by
  constructor
  · rintro okey akey (rfl | rfl) (rfl | rfl) <;> rfl
  · intro other
    constructor <;> rfl

/-- Witness for `aiBridge_noKeys_throws` at a concrete input. -/
theorem aiBridge_noKeys_throws_witness :
    aiBridgeKeyCheck none (some "") = .error "No provider keys provided" ∧
    aiBridgeKeyCheck (some "") (some "sk-ant") = aiBridgeKeyCheck none (some "sk-ant") :=
  ⟨aiBridge_noKeys_throws.1 none (some "") (Or.inl rfl) (Or.inr rfl),
   (aiBridge_noKeys_throws.2 (some "sk-ant")).1⟩

/-- C8: with `tempKey = -1` the generated partition key is a
non-negative integer; it is `0` when the effective temperature is `0` or
`Math.floor(temperature * temperatureKeyMultiplier) <= 0`, and otherwise
lies in `[0, temperature * temperatureKeyMultiplier)`. -/
theorem genTempKey_auto_nonneg_range (temperature mult rand : ℚ)
    (hr0 : 0 ≤ rand) (hr1 : rand < 1) :
    0 ≤ genTempKey (-1) temperature mult rand ∧
    (temperature = 0 → genTempKey (-1) temperature mult rand = 0) ∧
    (⌊temperature * mult⌋ ≤ 0 → genTempKey (-1) temperature mult rand = 0) ∧
    (0 < ⌊temperature * mult⌋ →
        (genTempKey (-1) temperature mult rand : ℚ) < temperature * mult) := by
  by_cases hf : ⌊temperature * mult⌋ ≤ 0
  · have hkey : genTempKey (-1) temperature mult rand = 0 := by
      simp [genTempKey, hf]
    exact ⟨by rw [hkey], fun _ => hkey, fun _ => hkey,
      fun hlt => absurd hlt (not_lt.mpr hf)⟩
  · push_neg at hf
    have h1 : (1 : ℚ) ≤ temperature * mult := by
      exact_mod_cast Int.le_floor.mp hf
    have ht : (0 : ℚ) < temperature * mult := lt_of_lt_of_le one_pos h1
    have hkey : genTempKey (-1) temperature mult rand = ⌊rand * (temperature * mult)⌋ := by
      simp [genTempKey, not_le.mpr (Int.lt_iff_add_one_le.mpr hf)]
    refine ⟨?_, ?_, ?_, ?_⟩
    · rw [hkey]
      exact Int.floor_nonneg.mpr (mul_nonneg hr0 ht.le)
    · intro h0
      exfalso
      rw [h0, zero_mul] at hf
      simp at hf
    · intro h
      exact absurd h (not_le.mpr hf)
    · intro _
      rw [hkey]
      calc (⌊rand * (temperature * mult)⌋ : ℚ)
          ≤ rand * (temperature * mult) := Int.floor_le _
        _ < 1 * (temperature * mult) := by
            exact mul_lt_mul_of_pos_right hr1 ht
        _ = temperature * mult := one_mul _

/-- Witness for `genTempKey_auto_nonneg_range` at
`temperature = 1`, `multiplier = 10`, `rand = 1/2`. -/
theorem genTempKey_auto_nonneg_range_witness :
    (0 ≤ (1/2 : ℚ) ∧ (1/2 : ℚ) < 1) ∧
    (0 ≤ genTempKey (-1) 1 10 (1/2) ∧
     ((1 : ℚ) = 0 → genTempKey (-1) 1 10 (1/2) = 0) ∧
     (⌊(1 : ℚ) * 10⌋ ≤ 0 → genTempKey (-1) 1 10 (1/2) = 0) ∧
     (0 < ⌊(1 : ℚ) * 10⌋ → (genTempKey (-1) 1 10 (1/2) : ℚ) < 1 * 10)) :=
  ⟨⟨by norm_num, by norm_num⟩,
   genTempKey_auto_nonneg_range 1 10 (1/2) (by norm_num) (by norm_num)⟩

/-- C10: a cache hit invokes the stream listener exactly once with the
full cached completion and returns `token.cache = true` with the cached
text; a cache miss returns `token.cache = false` carrying the freshly
fetched completion (and only the provider's own listener events). -/
theorem getChatCompletion_cacheFlag
    (model : String) (ptc : Nat) (tc : String → Nat)
    (cacheRes : Option String) (pr : String) (pe : List String) :
    (∀ s, cacheRes = some s →
        (getChatCompletionFinish model ptc tc cacheRes pr pe).1 = [s] ∧
        (getChatCompletionFinish model ptc tc cacheRes pr pe).2.token.cache = true ∧
        (getChatCompletionFinish model ptc tc cacheRes pr pe).2.completion = s) ∧
    (cacheRes = none →
        (getChatCompletionFinish model ptc tc cacheRes pr pe).1 = pe ∧
        (getChatCompletionFinish model ptc tc cacheRes pr pe).2.token.cache = false ∧
        (getChatCompletionFinish model ptc tc cacheRes pr pe).2.completion = pr) := by
  constructor
  · rintro s rfl
    exact ⟨rfl, rfl, rfl⟩
  · rintro rfl
    exact ⟨rfl, rfl, rfl⟩

/-- Witness for `getChatCompletion_cacheFlag` on a concrete hit and a
concrete miss. -/
theorem getChatCompletion_cacheFlag_witness :
    ((getChatCompletionFinish "gpt-3.5-turbo-1106" 3 String.length (some "cached text") "fresh" []).1
        = ["cached text"] ∧
     (getChatCompletionFinish "gpt-3.5-turbo-1106" 3 String.length (some "cached text") "fresh" []).2.token.cache
        = true ∧
     (getChatCompletionFinish "gpt-3.5-turbo-1106" 3 String.length (some "cached text") "fresh" []).2.completion
        = "cached text") ∧
    ((getChatCompletionFinish "gpt-3.5-turbo-1106" 3 String.length none "fresh" ["fr", "esh"]).1
        = ["fr", "esh"] ∧
     (getChatCompletionFinish "gpt-3.5-turbo-1106" 3 String.length none "fresh" ["fr", "esh"]).2.token.cache
        = false ∧
     (getChatCompletionFinish "gpt-3.5-turbo-1106" 3 String.length none "fresh" ["fr", "esh"]).2.completion
        = "fresh") :=
  ⟨(getChatCompletion_cacheFlag "gpt-3.5-turbo-1106" 3 String.length (some "cached text") "fresh" []).1
      "cached text" rfl,
   (getChatCompletion_cacheFlag "gpt-3.5-turbo-1106" 3 String.length none "fresh" ["fr", "esh"]).2 rfl⟩

/-- Embedding cache object "p" under options `{model, user: "alice"}`. -/
def embObjAlice : EmbedCacheObj :=
  ⟨"p", .obj [("model", .str "text-embedding-ada-002"), ("user", .str "alice")],
   "text-embedding-ada-002"⟩

/-- Embedding cache object: same prompt and model, different options
(`user: "bob"`). -/
def embObjBob : EmbedCacheObj :=
  ⟨"p", .obj [("model", .str "text-embedding-ada-002"), ("user", .str "bob")],
   "text-embedding-ada-002"⟩

/-- C2 (failing input): `addCacheEmbedding` upserts by
`(prompt, opt)` but `getCacheEmbedding` looks up by `prompt` alone, so a
request whose options differ resolves to the other request's cached
entry — even after its own entry has been stored. -/
theorem mongo_embedding_lookup_ignores_options :
    getCacheEmbedding (addCacheEmbedding emptyMongoStore embObjAlice [1, 2]) embObjBob
      = some [1, 2] ∧
    getCacheEmbedding
        (addCacheEmbedding (addCacheEmbedding emptyMongoStore embObjAlice [1, 2])
          embObjBob [3, 4]) embObjBob
      = some [1, 2] ∧
    jsBeq embObjAlice.cleanOpt embObjBob.cleanOpt = false := by
  refine ⟨rfl, ?_, rfl⟩
  rfl

/-- The provider body `{"error": {"type": "invalid_request_error",
"message": "bad request"}}`. -/
def jErrBody : JsVal :=
  .obj [("error", .obj [("type", .str "invalid_request_error"),
                        ("message", .str "bad request")])]

/-- The provider body
`{"choices": [{"message": {"role": "assistant", "content": "ok"}}]}`. -/
def jOkBody : JsVal :=
  .obj [("choices", .arr [.obj [("message",
      .obj [("role", .str "assistant"), ("content", .str "ok")])]])]

/-- C1 (counterexample): an attempt whose response body encodes an error
does NOT abort the call — the `throw` at line 130 is caught by the
attempt's own `catch` and the second attempt proceeds (and here
succeeds); the call is not aborted after the first attempt. -/
theorem nsRetry_contentError_not_aborted :
    getChatCompletionNS false (.respBody jErrBody) (.respBody jOkBody) =
      ⟨.retStr (.str "ok"), 2, [.str "ok"]⟩ ∧
    (getChatCompletionNS false (.respBody jErrBody) (.respBody jOkBody)).attemptsUsed ≠ 1 :=
  ⟨rfl, by decide⟩

/-- C1 (amended): a response body that encodes an error fails the
attempt exactly like a transport failure: the thrown message is recorded
in `respErr` and the second attempt is always performed. -/
theorem nsRetry_contentError_second_attempt
    (useRawApi : Bool) (j : JsVal) (a2 : AttemptInput)
    (herr : truthyO (jsGetField j "error") = true) :
    (getChatCompletionNS useRawApi (.respBody j) a2).attemptsUsed = 2 := by
  have h1 : (nsAttempt useRawApi (.respBody j)).1 = .caught (contentErrMsg j) := by
    simp [nsAttempt, nsProcessResp, herr]
  rcases h2 : nsAttempt useRawApi a2 with ⟨s2, rj2⟩
  cases s2 <;> simp [getChatCompletionNS, h1, h2]

/-- Witness for `nsRetry_contentError_second_attempt` at the concrete
error body `jErrBody`. -/
theorem nsRetry_contentError_second_attempt_witness :
    truthyO (jsGetField jErrBody "error") = true ∧
    (getChatCompletionNS false (.respBody jErrBody) (.respBody jOkBody)).attemptsUsed = 2 :=
  ⟨rfl, nsRetry_contentError_second_attempt false jErrBody (.respBody jOkBody) rfl⟩

/-- C3 (counterexample): attempt 1 fails in transport, attempt 2 yields
the well-formed body `{}` (no `error`, no `choices`); both attempts
complete without a successful completion, yet the call hits `return
null` (line 163) and returns normally instead of raising. -/
theorem nsRetry_can_return_null :
    getChatCompletionNS false (.throwEarly "fetch failed: ECONNRESET") (.respBody (.obj [])) =
      ⟨.retNull, 2, []⟩ := rfl

/-- The message thrown by an attempt when its body throws (transport
failure, or the content-error `throw` of line 130), if any. -/
def attemptCaughtMsg (useRawApi : Bool) (a : AttemptInput) : Option String :=
  match (nsAttempt useRawApi a).1 with
  | .caught e => some e
  | _ => none

/-- The value an attempt assigns to `respJson` (none when `fetch` or
`resp.json()` failed before a body was parsed). -/
def attemptRespJson : AttemptInput → Option JsVal
  | .throwEarly _ => none
  | .respBody j => some j

/-- C3 (amended): when both attempts end in an exception (transport
failure or error-encoding body), the call terminates by throwing, with
the diagnostic state carrying the last thrown error and the last raw
response body seen. -/
theorem nsRetry_exhausted_throws (useRawApi : Bool) (a1 a2 : AttemptInput)
    (e1 e2 : String)
    (h1 : attemptCaughtMsg useRawApi a1 = some e1)
    (h2 : attemptCaughtMsg useRawApi a2 = some e2) :
    getChatCompletionNS useRawApi a1 a2 =
      ⟨.exhausted (some e2)
          ((attemptRespJson a2).orElse (fun _ => attemptRespJson a1)), 2, []⟩ := by
  unfold attemptCaughtMsg at h1 h2
  have hr1 : (nsAttempt useRawApi a1).2 = attemptRespJson a1 := by
    cases a1 <;> rfl
  have hr2 : (nsAttempt useRawApi a2).2 = attemptRespJson a2 := by
    cases a2 <;> rfl
  rcases hs1 : (nsAttempt useRawApi a1).1 with ⟨o1, ev1⟩ | m1
  · rw [hs1] at h1
    cases h1
  · rcases hs2 : (nsAttempt useRawApi a2).1 with ⟨o2, ev2⟩ | m2
    · rw [hs2] at h2
      cases h2
    · rw [hs1] at h1
      rw [hs2] at h2
      cases h1
      cases h2
      simp [getChatCompletionNS, hs1, hs2, hr1, hr2]

/-- Witness for `nsRetry_exhausted_throws`: a content error on attempt 1
and a transport failure on attempt 2. -/
theorem nsRetry_exhausted_throws_witness :
    attemptCaughtMsg false (.respBody jErrBody) = some "[invalid_request_error] undefined" ∧
    attemptCaughtMsg false (.throwEarly "boom") = some "boom" ∧
    getChatCompletionNS false (.respBody jErrBody) (.throwEarly "boom") =
      ⟨.exhausted (some "boom") (some jErrBody), 2, []⟩ :=
  ⟨rfl, rfl,
   by
    have h := nsRetry_exhausted_throws false (.respBody jErrBody) (.throwEarly "boom")
      "[invalid_request_error] undefined" "boom" rfl rfl
    simpa [attemptRespJson, Option.orElse] using h⟩

/-- C5: decoding
`"data: {\"choices\":[{\"delta\":{\"content\":\"Hi\"}}]}\n\ndata: [DONE]\n\n"`
followed by source completion emits exactly the one delta `"Hi"`,
returns accumulated text `"Hi"` and ends in the DONE state (`.ok`); and
a `[DONE]` sentinel block is consumed without producing a delta and
without terminating the stream (a block arriving after it is still
decoded). -/
theorem streamDecode_hi_example :
    streamDecode ["data: \x7b\"choices\":[\x7b\"delta\":\x7b\"content\":\"Hi\"\x7d\x7d]\x7d\n\ndata: [DONE]\n\n"]
      = .ok ("Hi", ["Hi"]) ∧
    streamDecode ["data: [DONE]\n\ndata: \x7b\"choices\":[\x7b\"delta\":\x7b\"content\":\"Hi\"\x7d\x7d]\x7d\n\n"]
      = .ok ("Hi", ["Hi"]) :=
  ⟨rfl, rfl⟩

/-- A buffer with no (positive-position) block terminator passes through
the block loop unchanged. -/
theorem processBlocks_noBlock (fuel : Nat) (buf : List Char) (parsed : String)
    (events : List String) (hnb : findDNL buf = none) :
    processBlocks fuel buf parsed events = .ok (buf, parsed, events) := by
  cases fuel with
  | zero => rfl
  | succ fuel => rw [processBlocks, hnb]

/-- C6: when the byte source signals completion (no more chunks) while
the buffer still holds a non-empty unterminated remainder after
trimming, the decoder throws the end-of-stream protocol error rather
than returning the partial accumulated text; with an empty trimmed
leftover it returns the accumulated text (DONE). -/
theorem streamEnd_leftover_check (buf : List Char) (parsed : String)
    (events : List String) (hnb : findDNL (dropLeadingNL buf) = none) :
    (trimChars (dropLeadingNL buf) ≠ [] →
        streamDecodeLoop [] buf parsed events =
          .error "Unexpected end of stream, with unprocessed data, see warning logs for more details") ∧
    (trimChars (dropLeadingNL buf) = [] →
        streamDecodeLoop [] buf parsed events = .ok (parsed, events)) := by
  have hpb := processBlocks_noBlock buf.length (dropLeadingNL buf) parsed events hnb
  constructor
  · intro hne
    have hlen : 0 < (trimChars (dropLeadingNL buf)).length :=
      List.length_pos.mpr hne
    simp [streamDecodeLoop, hpb, hlen]
  · intro heq
    simp [streamDecodeLoop, hpb, heq]

/-- Witness for `streamEnd_leftover_check`: the spec's example buffer
`"data: {incomplete"` errors; an empty buffer returns the accumulated
text. -/
theorem streamEnd_leftover_check_witness :
    trimChars (dropLeadingNL "data: \x7bincomplete".data) ≠ [] ∧
    streamDecodeLoop [] "data: \x7bincomplete".data "" [] =
      .error "Unexpected end of stream, with unprocessed data, see warning logs for more details" ∧
    streamDecodeLoop [] [] "Hi" ["Hi"] = .ok ("Hi", ["Hi"]) :=
  ⟨by decide,
   (streamEnd_leftover_check "data: \x7bincomplete".data "" [] rfl).1 (by decide),
   (streamEnd_leftover_check [] "Hi" ["Hi"] rfl).2 rfl⟩

/-- C4 (counterexample): for the error-prefixed block `"error: boom"`,
the decoder throws with the remainder after the prefix, but the error
surfaced to the caller is the fixed generic message of the
`catch` block (lines 276-278) and does not carry the failure detail
`boom`. -/
theorem streamError_caller_message_cex :
    streamDecode ["error: boom\n\n"] = .error "Unexpected stream request error:  boom" ∧
    streamingRequest ["error: boom\n\n"] =
      .error "Unexpected event processing error, see warning logs for more details" ∧
    strContains "Unexpected event processing error, see warning logs for more details" "boom"
      = false :=
  ⟨rfl, rfl, rfl⟩

/-- C4 (amended): a block beginning with `error:` makes the block loop
throw immediately — whatever fuel, accumulated state, or further buffer
content remains — carrying the remainder of the trimmed event after the
6-character prefix; and every decoder throw reaches the caller as the
fixed generic message of the streaming `catch` block. -/
theorem streamError_block_aborts (fuel : Nat) (buf : List Char) (parsed : String)
    (events : List String) (p : Nat)
    (hfind : findDNL buf = some p) (hp : 0 < p)
    (herr : List.isPrefixOf "error:".data (trimChars (buf.take p)) = true) :
    processBlocks (fuel + 1) buf parsed events =
      .error ("Unexpected stream request error: " ++
        String.mk ((trimChars (buf.take p)).drop 6)) ∧
    ∀ chunks msg, streamDecode chunks = .error msg →
      streamingRequest chunks =
        .error "Unexpected event processing error, see warning logs for more details" := by
  constructor
  · rw [processBlocks, hfind]
    simp [hp, herr]
  · intro chunks msg h
    simp [streamingRequest, h]

/-- Witness for `streamError_block_aborts` at the block
`"error: boom"`. -/
theorem streamError_block_aborts_witness :
    findDNL "error: boom\n\n".data = some 11 ∧
    processBlocks 1 "error: boom\n\n".data "" [] =
      .error ("Unexpected stream request error: " ++
        String.mk ((trimChars ("error: boom\n\n".data.take 11)).drop 6)) ∧
    streamingRequest ["error: boom\n\n"] =
      .error "Unexpected event processing error, see warning logs for more details" :=
  ⟨rfl,
   (streamError_block_aborts 0 "error: boom\n\n".data "" [] 11 rfl (by decide) (by decide)).1,
   (streamError_block_aborts 0 "error: boom\n\n".data "" [] 11 rfl (by decide) (by decide)).2
     ["error: boom\n\n"] "Unexpected stream request error:  boom" rfl⟩

/-- Structural induction over `JsVal` with hypotheses for array elements
and object field values. -/
theorem jsVal_ind (P : JsVal → Prop) (hnull : P .null) (hbool : ∀ b, P (.bool b))
    (hnum : ∀ n, P (.num n)) (hstr : ∀ s, P (.str s))
    (harr : ∀ l, (∀ x ∈ l, P x) → P (.arr l))
    (hobj : ∀ l, (∀ p ∈ l, P p.2) → P (.obj l)) : ∀ v, P v
  | .null => hnull
  | .bool b => hbool b
  | .num n => hnum n
  | .str s => hstr s
  | .arr l => harr l (fun x hx => jsVal_ind P hnull hbool hnum hstr harr hobj x)
  | .obj l => hobj l (fun p hp => jsVal_ind P hnull hbool hnum hstr harr hobj p.2)
termination_by v => sizeOf v
decreasing_by
  · have h1 := List.sizeOf_lt_of_mem hx
    simp only [JsVal.arr.sizeOf_spec]
    omega
  · have h1 := List.sizeOf_lt_of_mem hp
    rcases p with ⟨k, v2⟩
    simp only [Prod.mk.sizeOf_spec, JsVal.obj.sizeOf_spec] at h1 ⊢
    omega

/-- `jsonStringifyList` is elementwise serialization. -/
@[simp] theorem jsonStringifyList_eq (l : List JsVal) :
    jsonStringifyList l = l.map jsonStringify := by
  induction l with
  | nil => rfl
  | cons v vs ih => simp [jsonStringifyList, ih]

/-- `jsonStringifyFields` serializes each field value, keeping its key. -/
@[simp] theorem jsonStringifyFields_eq (l : List (String × JsVal)) :
    jsonStringifyFields l = l.map (fun p => (p.1, jsonStringify p.2)) := by
  induction l with
  | nil => rfl
  | cons p ps ih => simp [jsonStringifyFields, ih]

/-- Strict key order on rendered object entries. -/
def fieldLT (p q : String × String) : Prop := p.1 < q.1

instance : IsAntisymm (String × String) fieldLT :=
  ⟨fun a _ h1 h2 => absurd (lt_trans h1 h2) (lt_irrefl a.1)⟩

/-- C7: `jsonStringify` (the `fast-json-stable-stringify` cache-index
serialization) maps two payloads that are semantically identical but
differ only in object-field insertion order to the identical string. -/
theorem jsonStringify_eq_of_jsEquiv :
    ∀ a b, JsEquiv a b → jsonStringify a = jsonStringify b := by
  refine jsVal_ind (fun a => ∀ b, JsEquiv a b → jsonStringify a = jsonStringify b)
    ?_ ?_ ?_ ?_ ?_ ?_
  · intro b hb
    cases b <;> simp_all [JsEquiv]
  · intro x b hb
    cases b <;> simp_all [JsEquiv]
  · intro n b hb
    cases b <;> simp_all [JsEquiv]
  · intro s b hb
    cases b <;> simp_all [JsEquiv]
  · intro l ih b hb
    cases b with
    | arr l2 =>
        simp only [JsEquiv] at hb
        obtain ⟨hlen, helt⟩ := hb
        have hmap : List.map jsonStringify l = List.map jsonStringify l2 := by
          apply List.ext_getElem (by simpa using hlen)
          intro i h1 h2
          simp only [List.getElem_map]
          have hm : l.get ⟨i, by simpa using h1⟩ ∈ l := List.get_mem _ _ _
          have := ih _ hm (l2.get ⟨i, by simpa using h2⟩)
            (helt i (by simpa using h1) (by simpa using h2))
          simpa [List.get_eq_getElem] using this
        simp only [jsonStringify, jsonStringifyList_eq, hmap]
    | null => simp_all [JsEquiv]
    | bool => simp_all [JsEquiv]
    | num => simp_all [JsEquiv]
    | str => simp_all [JsEquiv]
    | obj => simp_all [JsEquiv]
  · intro l ih b hb
    cases b with
    | obj l2 =>
        simp only [JsEquiv] at hb
        obtain ⟨hnd1, hnd2, hlen, hmatch⟩ := hb
        simp only [jsonStringify, jsonStringifyFields_eq]
        congr 2
        set f : String × JsVal → String × String :=
          fun p => (p.1, jsonStringify p.2) with hf
        have hkeys1 : (l.map f).map Prod.fst = l.map Prod.fst := by
          simp [hf]
        have hkeys2 : (l2.map f).map Prod.fst = l2.map Prod.fst := by
          simp [hf]
        have hnd1' : (l.map f).Nodup := by
          refine List.Nodup.of_map Prod.fst ?_
          rw [hkeys1]; exact hnd1
        have hnd2' : (l2.map f).Nodup := by
          refine List.Nodup.of_map Prod.fst ?_
          rw [hkeys2]; exact hnd2
        have hsub : l.map f ⊆ l2.map f := by
          intro x hx
          obtain ⟨p, hp, rfl⟩ := List.mem_map.mp hx
          obtain ⟨q, hq, hkey, hequiv⟩ := hmatch p hp
          have hval : jsonStringify p.2 = jsonStringify q.2 := ih p hp q.2 hequiv
          have : f p = f q := by
            simp [hf, hkey, hval]
          rw [this]
          exact List.mem_map_of_mem f hq
        have hperm : List.Perm (l.map f) (l2.map f) := by
          refine List.Subperm.perm_of_length_le (List.Nodup.subperm hnd1' hsub) ?_
          simp [hlen]
        have hs1 : List.Sorted fieldLE (List.insertionSort fieldLE (l.map f)) :=
          List.sorted_insertionSort fieldLE (l.map f)
        have hs2 : List.Sorted fieldLE (List.insertionSort fieldLE (l2.map f)) :=
          List.sorted_insertionSort fieldLE (l2.map f)
        have hperm1 := List.perm_insertionSort fieldLE (l.map f)
        have hperm2 := List.perm_insertionSort fieldLE (l2.map f)
        have hndk1 : ((List.insertionSort fieldLE (l.map f)).map Prod.fst).Nodup := by
          refine (List.Perm.nodup_iff (List.Perm.map Prod.fst hperm1)).mpr ?_
          rw [hkeys1]; exact hnd1
        have hndk2 : ((List.insertionSort fieldLE (l2.map f)).map Prod.fst).Nodup := by
          refine (List.Perm.nodup_iff (List.Perm.map Prod.fst hperm2)).mpr ?_
          rw [hkeys2]; exact hnd2
        have hstrict1 : List.Sorted fieldLT (List.insertionSort fieldLE (l.map f)) := by
          have hne := (List.pairwise_map.mp hndk1)
          exact (hs1.and hne).imp (fun h => lt_of_le_of_ne h.1 h.2)
        have hstrict2 : List.Sorted fieldLT (List.insertionSort fieldLE (l2.map f)) := by
          have hne := (List.pairwise_map.mp hndk2)
          exact (hs2.and hne).imp (fun h => lt_of_le_of_ne h.1 h.2)
        have hpermS : List.Perm (List.insertionSort fieldLE (l.map f))
            (List.insertionSort fieldLE (l2.map f)) :=
          hperm1.trans (hperm.trans hperm2.symm)
        rw [List.eq_of_perm_of_sorted hpermS hstrict1 hstrict2]
    | null => simp_all [JsEquiv]
    | bool => simp_all [JsEquiv]
    | num => simp_all [JsEquiv]
    | str => simp_all [JsEquiv]
    | arr => simp_all [JsEquiv]

/-- A one-message chat payload `[ { role: "user", content: "hi" } ]`. -/
def msgsSwapA : JsVal := .arr [.obj [("role", .str "user"), ("content", .str "hi")]]

/-- The same payload with the two fields in the opposite insertion
order. -/
def msgsSwapB : JsVal := .arr [.obj [("content", .str "hi"), ("role", .str "user")]]

/-- Witness for `jsonStringify_eq_of_jsEquiv` on a concrete
field-order-swapped message payload. -/
theorem jsonStringify_eq_of_jsEquiv_witness :
    JsEquiv msgsSwapA msgsSwapB ∧ jsonStringify msgsSwapA = jsonStringify msgsSwapB := by
  have hequiv : JsEquiv msgsSwapA msgsSwapB := by
    simp only [msgsSwapA, msgsSwapB, JsEquiv]
    refine ⟨rfl, ?_⟩
    intro i h1 h2
    have hi : i = 0 := by simpa using h1
    subst hi
    simp only [List.get]
    simp only [JsEquiv]
    refine ⟨by decide, by decide, rfl, ?_⟩
    intro p hp
    simp only [List.mem_cons, List.not_mem_nil, or_false] at hp
    rcases hp with rfl | rfl
    · exact ⟨("role", .str "user"), by simp, rfl, by simp [JsEquiv]⟩
    · exact ⟨("content", .str "hi"), by simp, rfl, by simp [JsEquiv]⟩
  exact ⟨hequiv, jsonStringify_eq_of_jsEquiv msgsSwapA msgsSwapB hequiv⟩
